import Mathlib

/-!
Verification of the `bevy_actify` input-action pipeline.

The embedding follows `src/src/lib.rs` (the current revision) and
`src/bevy_actify/src/plugin.rs` (the older revision).  The action value
type `A` is opaque with decidable equality, mirroring the Rust bound
`InputAction: Clone + PartialEq`.  Bevy's `Events` / `EventReader`
machinery is not part of this repository; where a claim depends on it,
the queue and per-reader cursor are modelled from the specification
(see `EventQueue` and `ReaderCursor` below).
-/

namespace BevyActify

/-- `internal::InputActionState<A>` from `src/src/lib.rs`: the durable
state of an action, either `Active(A)` or `Idle`. -/
inductive InputActionState (A : Type) where
  | Active (state : A)
  | Idle
deriving DecidableEq, Repr

/-- `internal::InputActionDrain<A>` from `src/src/lib.rs`: a newtype
over `Option<A>` holding at most one pending value. -/
structure InputActionDrain (A : Type) where
  pending : Option A
deriving DecidableEq, Repr

/-- `internal::InputActionUpdated<A>` from `src/src/lib.rs`: the
transition event, `Started(A)`, `Updated(A)` or `Stopped`. -/
inductive InputActionUpdated (A : Type) where
  | Started (state : A)
  | Updated (state : A)
  | Stopped
deriving DecidableEq, Repr

/-- `InputActionDrain::pour` (`src/src/lib.rs` lines 262-264):
`self.inner.replace(state)` — unconditionally overwrites the pending
value with `some state`. -/
def InputActionDrain.pour {A : Type} (_drain : InputActionDrain A) (state : A) :
    InputActionDrain A :=
  ⟨some state⟩

/-- `Option::take` as used by the resolver: returns the pending value
and leaves the drain empty. -/
def InputActionDrain.take {A : Type} (drain : InputActionDrain A) :
    Option A × InputActionDrain A :=
  (drain.pending, ⟨none⟩)

/-- `InputActionState::is_active` (`src/src/lib.rs` lines 213-215):
`matches!(self.inner.as_ref(), internal::InputActionState::Active(_))`. -/
def InputActionState.is_active {A : Type} : InputActionState A → Bool
  | .Active _ => true
  | .Idle => false

/-- `InputActionState::state` (`src/src/lib.rs` lines 233-238): returns
`Some` of a clone of the value when `Active`, `None` when `Idle`.
Cloning is the identity in the embedding. -/
def InputActionState.state {A : Type} : InputActionState A → Option A
  | .Active state => some state
  | .Idle => none

/-- Modelled from the spec: the event store behind bevy's
`Events<InputActionUpdated<A>>` (the `add_event` call in
`add_input_action`) is not under `src/`.  Per spec section 4.4 it is an
append-only ordered sequence of transition events. -/
structure EventQueue (A : Type) where
  events : List (InputActionUpdated A)
deriving DecidableEq, Repr

/-- `EventWriter::send`: appends one event at the write end of the
queue, in emission order. -/
def EventQueue.send {A : Type} (q : EventQueue A) (e : InputActionUpdated A) :
    EventQueue A :=
  ⟨q.events ++ [e]⟩

/-- `update_input_action_state` (`src/src/lib.rs` lines 303-312):
`*state = drain.take().map_or(Idle, Active)`.  Takes the drain and the
current state resources and returns their new contents. -/
def update_input_action_state {A : Type}
    (drain : InputActionDrain A) (_state : InputActionState A) :
    InputActionDrain A × InputActionState A :=
  let taken := drain.take
  (taken.2,
    match taken.1 with
    | none => InputActionState.Idle
    | some state => InputActionState.Active state)

/-- The `match (&*local, state)` block of `write_input_action_events`
(`src/src/lib.rs` lines 342-355): sends at most one event into the
queue depending on the previous and current resolved options. -/
def sendTransition {A : Type} [DecidableEq A] (queue : EventQueue A) :
    Option A → Option A → EventQueue A
  | none, none => queue
  | none, some value => queue.send (.Started value)
  | some _, none => queue.send .Stopped
  | some previous, some next =>
      if previous ≠ next then queue.send (.Updated next) else queue

/-- `write_input_action_events` (`src/src/lib.rs` lines 332-358): reads
the resolved state as an `Option<A>`, matches it against the `Local`
previous value, sends at most one event, and stores the current option
as the new previous value.  Inputs are the `Local<Option<A>>`, the
event queue and the state resource; outputs are the new local value and
the new queue. -/
def write_input_action_events {A : Type} [DecidableEq A]
    (prev : Option A) (queue : EventQueue A) (st : InputActionState A) :
    Option A × EventQueue A :=
  let state : Option A :=
    match st with
    | .Active state => some state
    | .Idle => none
  (state, sendTransition queue prev state)

/-- `impl Default for internal::InputActionState` (`src/src/lib.rs`
lines 411-415): the initial state is `Idle`. -/
def InputActionState.initial (A : Type) : InputActionState A :=
  InputActionState.Idle

/-- `impl Default for internal::InputActionDrain` (`src/src/lib.rs`
lines 417-421): the initial drain is empty. -/
def InputActionDrain.initial (A : Type) : InputActionDrain A :=
  ⟨none⟩

/-- Modelled from the spec: bevy initialises the tracker's
`Local<Option<A>>` with `Option::default()`; the spec calls this "an
empty previous value", i.e. `none`. -/
def initialPrev (A : Type) : Option A :=
  none

/-- Pouring a whole sequence of values within one tick, in order. -/
def pourAll {A : Type} (drain : InputActionDrain A) (values : List A) :
    InputActionDrain A :=
  values.foldl InputActionDrain.pour drain

/-- Modelled from the spec: a `Reader` is a cursor over the event
queue, "a per-consumer position marking which queued events have
already been delivered to that consumer" (spec sections 3 and 4.4, and
the design note: a per-reader last-seen generation over a
monotonically increasing write position). -/
structure ReaderCursor where
  pos : Nat
deriving DecidableEq, Repr

/-- Modelled from the spec: `Reader.read()` "returns all events
appended since this reader's cursor position, in emission order, and
advances the cursor past them". -/
def ReaderCursor.read {A : Type} (c : ReaderCursor) (q : EventQueue A) :
    List (InputActionUpdated A) × ReaderCursor :=
  (q.events.drop c.pos, ⟨q.events.length⟩)

/-- Modelled from the spec: `Reader.is_empty()` is "true iff no unseen
events exist for this cursor". -/
def ReaderCursor.is_empty {A : Type} (c : ReaderCursor) (q : EventQueue A) :
    Bool :=
  q.events.length ≤ c.pos

/-- Modelled from the spec: `Reader.clear()` "advances this cursor to
the current write position, discarding unseen events for this reader
only". -/
def ReaderCursor.clear {A : Type} (_c : ReaderCursor) (q : EventQueue A) :
    ReaderCursor :=
  ⟨q.events.length⟩

/-- A queue shared by two independent readers, each holding only its
own private cursor (spec section 3, Ownership). -/
structure TwoReaders (A : Type) where
  q : EventQueue A
  r1 : ReaderCursor
  r2 : ReaderCursor
deriving DecidableEq, Repr

/-- Emitting an event into the shared queue; no cursor moves. -/
def TwoReaders.send {A : Type} (s : TwoReaders A) (e : InputActionUpdated A) :
    TwoReaders A :=
  { s with q := s.q.send e }

/-- Reader 1 reads; only its own cursor advances. -/
def TwoReaders.read1 {A : Type} (s : TwoReaders A) :
    List (InputActionUpdated A) × TwoReaders A :=
  let r := s.r1.read s.q
  (r.1, { s with r1 := r.2 })

/-- Reader 2 reads; only its own cursor advances. -/
def TwoReaders.read2 {A : Type} (s : TwoReaders A) :
    List (InputActionUpdated A) × TwoReaders A :=
  let r := s.r2.read s.q
  (r.1, { s with r2 := r.2 })

/-- Reader 1 clears; only its own cursor advances. -/
def TwoReaders.clear1 {A : Type} (s : TwoReaders A) : TwoReaders A :=
  { s with r1 := s.r1.clear s.q }

namespace Old

/-- `internal::InputActionState<A>` from the older revision
`src/bevy_actify/src/lib.rs` (lines 130-134). -/
inductive InputActionState (A : Type) where
  | Active (state : A)
  | Idle
deriving DecidableEq, Repr

/-- `internal::InputActionDrain<A>` from the older revision
`src/bevy_actify/src/lib.rs` (lines 151-152). -/
structure InputActionDrain (A : Type) where
  pending : Option A
deriving DecidableEq, Repr

/-- `internal::InputActionUpdated<A>` from the older revision
`src/bevy_actify/src/lib.rs` (lines 158-163). -/
inductive InputActionUpdated (A : Type) where
  | Started (state : A)
  | Updated (state : A)
  | Stopped
deriving DecidableEq, Repr

/-- The older revision's event queue over its own event type. -/
structure EventQueue (A : Type) where
  events : List (InputActionUpdated A)
deriving DecidableEq, Repr

/-- `EventWriter::send` for the older revision. -/
def EventQueue.send {A : Type} (q : EventQueue A) (e : InputActionUpdated A) :
    EventQueue A :=
  ⟨q.events ++ [e]⟩

/-- `update_input_action_state` from the older revision
`src/bevy_actify/src/plugin.rs` (lines 86-95):
`*state = drain.take().map_or(Idle, Active)`. -/
def update_input_action_state {A : Type}
    (drain : InputActionDrain A) (_state : InputActionState A) :
    InputActionDrain A × InputActionState A :=
  let taken := drain.pending
  (⟨none⟩,
    match taken with
    | none => InputActionState.Idle
    | some state => InputActionState.Active state)

/-- The `match (&*local, state)` block of the older revision's
`write_input_action_events` (`src/bevy_actify/src/plugin.rs` lines
125-138). -/
def sendTransition {A : Type} [DecidableEq A] (queue : EventQueue A) :
    Option A → Option A → EventQueue A
  | none, none => queue
  | none, some value => queue.send (.Started value)
  | some _, none => queue.send .Stopped
  | some previous, some next =>
      if previous ≠ next then queue.send (.Updated next) else queue

/-- `write_input_action_events` from the older revision
`src/bevy_actify/src/plugin.rs` (lines 115-141). -/
def write_input_action_events {A : Type} [DecidableEq A]
    (prev : Option A) (queue : EventQueue A) (st : InputActionState A) :
    Option A × EventQueue A :=
  let state : Option A :=
    match st with
    | .Active state => some state
    | .Idle => none
  (state, sendTransition queue prev state)

end Old

/-- Correspondence between the older revision's state type and the
current one (the enums are structurally identical). -/
def Old.InputActionState.toNew {A : Type} :
    Old.InputActionState A → BevyActify.InputActionState A
  | .Active state => .Active state
  | .Idle => .Idle

/-- Correspondence between the older revision's drain and the current
one. -/
def Old.InputActionDrain.toNew {A : Type}
    (d : Old.InputActionDrain A) : BevyActify.InputActionDrain A :=
  ⟨d.pending⟩

/-- Correspondence between the older revision's event type and the
current one. -/
def Old.InputActionUpdated.toNew {A : Type} :
    Old.InputActionUpdated A → BevyActify.InputActionUpdated A
  | .Started state => .Started state
  | .Updated state => .Updated state
  | .Stopped => .Stopped

/-- Correspondence between the older revision's event queue and the
current one. -/
def Old.EventQueue.toNew {A : Type} (q : Old.EventQueue A) :
    BevyActify.EventQueue A :=
  ⟨q.events.map Old.InputActionUpdated.toNew⟩

/-- Helper: folding `pour` over a sequence of values leaves the last
value pending. -/
lemma pourAll_pending {A : Type} :
    ∀ (vs : List A) (d : InputActionDrain A) (w : A),
      vs.getLast? = some w → (pourAll d vs).pending = some w := by
  intro vs
  induction vs with
  | nil =>
      intro d w hw
      simp at hw
  | cons a tl ih =>
      intro d w hw
      cases tl with
      | nil =>
          have ha : a = w := by simpa using hw
          subst ha
          rfl
      | cons b tl' =>
          have hw' : (b :: tl').getLast? = some w := by
            rwa [List.getLast?_cons_cons] at hw
          exact ih ⟨some a⟩ w hw'

/-- C1: `write_input_action_events` emits, for every pair of previous
resolved value `p` and current resolved value `c`, exactly the event of
the spec's table: nothing for `none`/`none`, `Started v` for
`none`/`some v`, `Stopped` for `some _`/`none`, nothing for equal
`some`/`some`, and `Updated w` for distinct `some v`/`some w`. -/
theorem track_transition_table {A : Type} [DecidableEq A]
    (p c : Option A) (q : EventQueue A) :
    (write_input_action_events p q
        (match c with
         | some v => InputActionState.Active v
         | none => InputActionState.Idle)).2.events =
      q.events ++
        match p, c with
        | none, none => []
        | none, some v => [InputActionUpdated.Started v]
        | some _, none => [InputActionUpdated.Stopped]
        | some v, some w =>
            if v = w then [] else [InputActionUpdated.Updated w] := by
  cases p with
  | none =>
      cases c <;>
        simp [write_input_action_events, sendTransition, EventQueue.send]
  | some v =>
      cases c with
      | none =>
          simp [write_input_action_events, sendTransition, EventQueue.send]
      | some w =>
          by_cases hvw : v = w <;>
            simp [write_input_action_events, sendTransition,
              EventQueue.send, hvw]

/-- C2: after `update_input_action_state`, the state is `Active v` when
the drain held `some v` and `Idle` when it held `none`, and the drain
holds no pending value. -/
theorem resolve_spec {A : Type} (d : Option A) (st : InputActionState A) :
    (update_input_action_state ⟨d⟩ st).2 =
        (match d with
         | some v => InputActionState.Active v
         | none => InputActionState.Idle) ∧
    (update_input_action_state ⟨d⟩ st).1.pending = none := by
  cases d <;> exact ⟨rfl, rfl⟩

/-- C3: `pour` unconditionally overwrites the pending value with no
other effect on the drain, and for every non-empty sequence of pours
within one tick the drain holds exactly the last poured value, which is
the value that tick's resolve observes. -/
theorem pour_last_write_wins {A : Type} (d : InputActionDrain A) (v : A)
    (vs : List A) (st : InputActionState A) (h : vs ≠ []) :
    d.pour v = ⟨some v⟩ ∧
    ∃ w, vs.getLast? = some w ∧
      (pourAll d vs).pending = some w ∧
      (update_input_action_state (pourAll d vs) st).2 =
        InputActionState.Active w := by
  have hl : vs.getLast? = some (vs.getLast h) := List.getLast?_eq_getLast vs h
  have hp : (pourAll d vs).pending = some (vs.getLast h) :=
    pourAll_pending vs d (vs.getLast h) hl
  refine ⟨rfl, vs.getLast h, hl, hp, ?_⟩
  simp [update_input_action_state, InputActionDrain.take, hp]

/-- Witness for C3 at a concrete input: pouring 5 then the sequence
`[1, 2]` into an empty drain. -/
theorem pour_last_write_wins_witness :
    (⟨none⟩ : InputActionDrain Nat).pour 5 = ⟨some 5⟩ ∧
    ∃ w, ([1, 2] : List Nat).getLast? = some w ∧
      (pourAll ⟨none⟩ [1, 2]).pending = some w ∧
      (update_input_action_state (pourAll ⟨none⟩ [1, 2])
          InputActionState.Idle).2 = InputActionState.Active w :=
  pour_last_write_wins ⟨none⟩ 5 [1, 2] InputActionState.Idle (by decide)

/-- C4: for every cursor position (the length of the already-seen
part) and every queue content, `read` returns exactly the events
appended since that position, in emission order, advances the cursor
past them to the write position, and the returned sequence is a finite
list whose exact length is the number of new events. -/
theorem reader_read_spec {A : Type}
    (seen freshly : List (InputActionUpdated A)) :
    (ReaderCursor.read ⟨seen.length⟩ ⟨seen ++ freshly⟩).1 = freshly ∧
    (ReaderCursor.read ⟨seen.length⟩ ⟨seen ++ freshly⟩).2.pos =
      seen.length + freshly.length ∧
    (ReaderCursor.read ⟨seen.length⟩ ⟨seen ++ freshly⟩).1.length =
      freshly.length := by
  refine ⟨List.drop_left seen freshly, ?_, ?_⟩ <;>
    simp [ReaderCursor.read, List.drop_left]

/-- C5: after every run of `write_input_action_events`, the stored
previous value equals the `Option` derived from the current resolved
state (`some v` for `Active v`, `none` for `Idle`), whether or not an
event was emitted. -/
theorem track_prev_reflects_state {A : Type} [DecidableEq A]
    (p : Option A) (q : EventQueue A) (st : InputActionState A) :
    (write_input_action_events p q st).1 = st.state := by
  cases st <;> rfl

/-- C6: one run of `write_input_action_events` appends at most one
event to the event queue. -/
theorem track_at_most_one_event {A : Type} [DecidableEq A]
    (p : Option A) (q : EventQueue A) (st : InputActionState A) :
    (write_input_action_events p q st).2.events.length ≤
      q.events.length + 1 := by
  cases p <;> cases st <;>
    simp only [write_input_action_events, sendTransition] <;>
    (try split_ifs) <;>
    simp [EventQueue.send]

/-- C7: `clear` advances only that reader's cursor to the write
position and touches neither the queue nor the other reader; neither
`clear` nor `read` on one reader changes what the other reader reads;
and two readers whose cursors are at or before the write position when
an event is emitted each observe that event exactly once (their read
ends in it, and an immediate second read returns nothing), in any call
order. -/
theorem readers_independent {A : Type}
    (s : TwoReaders A) (e : InputActionUpdated A)
    (h1 : s.r1.pos ≤ s.q.events.length)
    (h2 : s.r2.pos ≤ s.q.events.length) :
    s.clear1.r1.pos = s.q.events.length ∧
    s.clear1.r2 = s.r2 ∧
    s.clear1.q = s.q ∧
    ((s.send e).clear1.read2).1 = ((s.send e).read2).1 ∧
    (((s.send e).read1).2.read2).1 = ((s.send e).read2).1 ∧
    ((s.send e).read1).1 = s.q.events.drop s.r1.pos ++ [e] ∧
    ((s.send e).read2).1 = s.q.events.drop s.r2.pos ++ [e] ∧
    (((s.send e).read2).2.read1).1 = s.q.events.drop s.r1.pos ++ [e] ∧
    (((s.send e).read1).2.read1).1 = [] := by
  obtain ⟨⟨es⟩, ⟨p1⟩, ⟨p2⟩⟩ := s
  refine ⟨rfl, rfl, rfl, rfl, rfl, ?_, ?_, ?_, ?_⟩
  · exact List.drop_append_of_le_length h1
  · exact List.drop_append_of_le_length h2
  · exact List.drop_append_of_le_length h1
  · exact List.drop_length (es ++ [e])

/-- Witness for C7 at a concrete input: an empty queue, both cursors
at position 0, and a `Stopped` event. -/
theorem readers_independent_witness :
    ((⟨⟨[]⟩, ⟨0⟩, ⟨0⟩⟩ : TwoReaders Nat).clear1.r1.pos = 0 ∧
     (⟨⟨[]⟩, ⟨0⟩, ⟨0⟩⟩ : TwoReaders Nat).clear1.r2 = ⟨0⟩ ∧
     (⟨⟨[]⟩, ⟨0⟩, ⟨0⟩⟩ : TwoReaders Nat).clear1.q = ⟨[]⟩ ∧
     (((⟨⟨[]⟩, ⟨0⟩, ⟨0⟩⟩ : TwoReaders Nat).send .Stopped).clear1.read2).1 =
       (((⟨⟨[]⟩, ⟨0⟩, ⟨0⟩⟩ : TwoReaders Nat).send .Stopped).read2).1 ∧
     ((((⟨⟨[]⟩, ⟨0⟩, ⟨0⟩⟩ : TwoReaders Nat).send .Stopped).read1).2.read2).1 =
       (((⟨⟨[]⟩, ⟨0⟩, ⟨0⟩⟩ : TwoReaders Nat).send .Stopped).read2).1 ∧
     (((⟨⟨[]⟩, ⟨0⟩, ⟨0⟩⟩ : TwoReaders Nat).send .Stopped).read1).1 =
       [] ++ [.Stopped] ∧
     (((⟨⟨[]⟩, ⟨0⟩, ⟨0⟩⟩ : TwoReaders Nat).send .Stopped).read2).1 =
       [] ++ [.Stopped] ∧
     ((((⟨⟨[]⟩, ⟨0⟩, ⟨0⟩⟩ : TwoReaders Nat).send .Stopped).read2).2.read1).1 =
       [] ++ [.Stopped] ∧
     ((((⟨⟨[]⟩, ⟨0⟩, ⟨0⟩⟩ : TwoReaders Nat).send .Stopped).read1).2.read1).1 =
       []) :=
  readers_independent ⟨⟨[]⟩, ⟨0⟩, ⟨0⟩⟩ InputActionUpdated.Stopped
    (Nat.le_refl 0) (Nat.le_refl 0)

/-- C8: `state` returns `some` of the associated value when the state
is `Active` and `none` when it is `Idle`, and `is_active` returns
`true` exactly when `state` returns `some`. -/
theorem state_accessors_spec {A : Type} (st : InputActionState A) (v : A) :
    (InputActionState.Active v).state = some v ∧
    (InputActionState.Idle : InputActionState A).state = none ∧
    (InputActionState.Active v).is_active = true ∧
    (InputActionState.Idle : InputActionState A).is_active = false ∧
    (st.is_active = true ↔ ∃ w, st.state = some w) := by
  refine ⟨rfl, rfl, rfl, rfl, ?_⟩
  cases st <;> simp [InputActionState.state, InputActionState.is_active]

/-- C9: a freshly registered pipeline starts with state `Idle`, an
empty drain and an empty previous value, so `is_active` is `false`,
`state` is `none`, and a first tick with no pour resolves to `Idle` and
emits no event. -/
theorem fresh_pipeline_spec {A : Type} [DecidableEq A] (q : EventQueue A) :
    (InputActionState.initial A).is_active = false ∧
    (InputActionState.initial A).state = none ∧
    (InputActionDrain.initial A).pending = none ∧
    initialPrev A = none ∧
    (update_input_action_state (InputActionDrain.initial A)
        (InputActionState.initial A)).2 = InputActionState.Idle ∧
    (write_input_action_events (initialPrev A) q
        (update_input_action_state (InputActionDrain.initial A)
          (InputActionState.initial A)).2).2 = q := by
  exact ⟨rfl, rfl, rfl, rfl, rfl, rfl⟩

/-- C10: the older revision's resolve and track systems (from
`src/bevy_actify/src/plugin.rs`) are extensionally equal to the current
revision's: on corresponding inputs they produce the corresponding
drain, state, previous value and emitted events. -/
theorem revisions_extensionally_equal {A : Type} [DecidableEq A]
    (d : Old.InputActionDrain A) (st : Old.InputActionState A)
    (p : Option A) (q : Old.EventQueue A) :
    (Old.update_input_action_state d st).1.toNew =
      (update_input_action_state d.toNew st.toNew).1 ∧
    (Old.update_input_action_state d st).2.toNew =
      (update_input_action_state d.toNew st.toNew).2 ∧
    (Old.write_input_action_events p q st).1 =
      (write_input_action_events p q.toNew st.toNew).1 ∧
    (Old.write_input_action_events p q st).2.toNew =
      (write_input_action_events p q.toNew st.toNew).2 := by
  obtain ⟨dp⟩ := d
  cases dp <;> cases st <;> cases p <;>
    simp [Old.update_input_action_state, update_input_action_state,
      Old.write_input_action_events, write_input_action_events,
      Old.sendTransition, sendTransition,
      Old.InputActionState.toNew, Old.InputActionDrain.toNew,
      Old.InputActionUpdated.toNew, Old.EventQueue.toNew,
      Old.EventQueue.send, EventQueue.send, InputActionDrain.take] <;>
    (try split_ifs) <;>
    simp [Old.EventQueue.toNew, Old.EventQueue.send, EventQueue.send,
      Old.InputActionUpdated.toNew]

end BevyActify
